import Mathlib

/-
Verification of the transparent price cache (cache.go).

Shallow embedding conventions:
- Prices are float64 in the source, but the cache never computes with them:
  it only stores values received from the service and hands them back (and
  returns the literal 0 on the error path).  They are therefore modelled as
  integers, which keeps every definition executable and decidable.
- time.Time and time.Duration are modelled as natural numbers; the Go test
  storedAt.Add(maxAge).After(now) becomes storedAt + maxAge > now (After is
  a strict comparison).  Go's zero-value time.Time obtained from a missing
  map key is modelled by Option.getD with default 0.
- Go maps are modelled as association lists where assignment prepends a
  binding and lookup returns the first (newest) binding, which is
  observationally equal to Go map assignment and indexing.
- Errors are modelled by the message string they carry; a Go (value, error)
  pair with nil error is Except.ok value, a non-nil error is Except.error msg.
-/

namespace GolangChallenge

/-- Prices (float64 in the source, opaque to the cache, modelled as Int). -/
abbrev Price := Int

/-- Instants and durations, modelled as natural numbers. -/
abbrev Time := Nat

/-- PriceService (cache.go lines 11-13): GetPriceFor(itemCode) returns a
price or an error; modelled as a function into Except. -/
def PriceService := String → Except String Price

/-- Go map assignment m[k] = v on an association-list map: prepend the new
binding; List.lookup finds the newest binding first. -/
def mapStore (m : List (String × α)) (k : String) (v : α) : List (String × α) :=
  (k, v) :: m

/-- TransparentCache (cache.go lines 18-24).  The sync.Mutex field only
serializes the write section of GetPriceFor and carries no data, so it has
no counterpart in the sequential embedding. -/
structure TransparentCache where
  actualPriceService : PriceService
  maxAge : Time
  prices : List (String × Price)
  expirationByItem : List (String × Time)

/-- NewTransparentCache (cache.go lines 27-34): both maps start empty. -/
def NewTransparentCache (actualPriceService : PriceService) (maxAge : Time) :
    TransparentCache :=
  { actualPriceService := actualPriceService
    maxAge := maxAge
    prices := []
    expirationByItem := [] }

/-- The observable outcome of one GetPriceFor call: the returned (price,
error) pair, the number of upstream service invocations made by the call
(instrumentation for the freshness/expiry claims), and the cache state
after the call. -/
structure PriceResult where
  price : Price
  err : Option String
  serviceCalls : Nat
  cache : TransparentCache

/-- The fetch-and-store path of GetPriceFor (cache.go lines 44-52): call the
service; on failure wrap the error as fmt.Errorf("getting price from
service : %v", ...) and cache nothing; on success write price and a fresh
timestamp into both maps (the mutex-guarded section). -/
def fetchFromService (c : TransparentCache) (now : Time) (itemCode : String) :
    PriceResult :=
  match c.actualPriceService itemCode with
  | .error e =>
      { price := 0
        err := some ("getting price from service : " ++ e)
        serviceCalls := 1
        cache := c }
  | .ok price =>
      { price := price
        err := none
        serviceCalls := 1
        cache :=
          { c with
            prices := mapStore c.prices itemCode price
            expirationByItem := mapStore c.expirationByItem itemCode now } }

/-- GetPriceFor (cache.go lines 37-53): if the item is cached and
expirationByItem[itemCode].Add(maxAge).After(now), return the cached price
with no service call; otherwise fetch from the service.  The two calls the
source makes to time.Now() are modelled by the single parameter now. -/
def GetPriceFor (c : TransparentCache) (now : Time) (itemCode : String) :
    PriceResult :=
  match c.prices.lookup itemCode with
  | some price =>
      if (c.expirationByItem.lookup itemCode).getD 0 + c.maxAge > now then
        { price := price, err := none, serviceCalls := 0, cache := c }
      else
        fetchFromService c now itemCode
  | none => fetchFromService c now itemCode

/-- The two maps contain bindings for exactly the same keys. -/
def sameKeys (c : TransparentCache) : Prop :=
  ∀ k : String, (c.prices.lookup k).isSome ↔ (c.expirationByItem.lookup k).isSome

-- Basic lemmas about the embedding.

theorem lookup_mapStore (m : List (String × α)) (k q : String) (v : α) :
    (mapStore m k v).lookup q = if q == k then some v else m.lookup q := by
  simp [mapStore, List.lookup]
  split <;> simp_all

theorem GetPriceFor_service_unchanged (c : TransparentCache) (now : Time)
    (itemCode : String) :
    (GetPriceFor c now itemCode).cache.actualPriceService =
      c.actualPriceService := by
  unfold GetPriceFor fetchFromService
  split <;> first
    | (split <;> [rfl; (split <;> rfl)])
    | (split <;> rfl)

theorem GetPriceFor_maxAge_unchanged (c : TransparentCache) (now : Time)
    (itemCode : String) :
    (GetPriceFor c now itemCode).cache.maxAge = c.maxAge := by
  unfold GetPriceFor fetchFromService
  split <;> first
    | (split <;> [rfl; (split <;> rfl)])
    | (split <;> rfl)

theorem GetPriceFor_err_of_service_ok (c : TransparentCache) (now : Time)
    (itemCode : String) (v : Price)
    (h : c.actualPriceService itemCode = .ok v) :
    (GetPriceFor c now itemCode).err = none := by
  unfold GetPriceFor fetchFromService
  split
  · split
    · rfl
    · rw [h]
  · rw [h]

theorem GetPriceFor_price_zero_of_err (c : TransparentCache) (now : Time)
    (itemCode : String) :
    (GetPriceFor c now itemCode).err ≠ none →
      (GetPriceFor c now itemCode).price = 0 := by
  unfold GetPriceFor fetchFromService
  split
  · split
    · intro h
      simp at h
    · split <;> intro h <;> simp_all
  · split <;> intro h <;> simp_all

theorem GetPriceFor_eq_fetch (c : TransparentCache) (now : Time)
    (itemCode : String)
    (h : ∀ p, c.prices.lookup itemCode = some p →
      ¬((c.expirationByItem.lookup itemCode).getD 0 + c.maxAge > now)) :
    GetPriceFor c now itemCode = fetchFromService c now itemCode := by
  unfold GetPriceFor
  split
  · rename_i p hp
    rw [if_neg (h p hp)]
  · rfl

theorem sameKeys_GetPriceFor (c : TransparentCache) (now : Time)
    (itemCode : String) (h : sameKeys c) :
    sameKeys (GetPriceFor c now itemCode).cache := by
  unfold GetPriceFor fetchFromService
  split
  · split
    · exact h
    · split
      · exact h
      · intro q
        simp only [lookup_mapStore]
        split
        · simp
        · exact h q
  · split
    · exact h
    · intro q
      simp only [lookup_mapStore]
      split
      · simp
      · exact h q

/-- getConcurrentPrice (cache.go lines 89-93), the body of one worker
goroutine: run GetPriceFor and make its price and error available on the
input and errOutput channels.  The pair it contributes is returned together
with the cache state after the call. -/
def getConcurrentPrice (c : TransparentCache) (now : Time) (itemCode : String) :
    (Price × Option String) × TransparentCache :=
  let r := GetPriceFor c now itemCode
  ((r.price, r.err), r.cache)

/-- One scheduling of the worker goroutines spawned by GetPricesFor
(cache.go lines 65-68): the workers run their GetPriceFor calls to
completion one after another in spawn order, threading the shared cache.
Returns the per-worker (price, error) pairs in spawn order and the final
cache state. -/
def runWorkersSeq : TransparentCache → Time → List String →
    List (Price × Option String) × TransparentCache
  | c, _, [] => ([], c)
  | c, now, k :: ks =>
      let r := getConcurrentPrice c now k
      let rest := runWorkersSeq r.2 now ks
      (r.1 :: rest.1, rest.2)

theorem sameKeys_runWorkersSeq (keys : List String) (c : TransparentCache)
    (now : Time) (h : sameKeys c) : sameKeys (runWorkersSeq c now keys).2 := by
  induction keys generalizing c with
  | nil => exact h
  | cons k ks ih =>
      exact ih (GetPriceFor c now k).cache (sameKeys_GetPriceFor c now k h)

-- Concrete instances used by the witnesses.

/-- A service that knows the price of item A and fails for every other item. -/
def svcA : PriceService :=
  fun k => if k == "A" then .ok 10 else .error "boom"

/-- A cache over svcA holding a value for item A stored at time 5. -/
def cacheWithA : TransparentCache :=
  { actualPriceService := svcA
    maxAge := 100
    prices := [("A", 42)]
    expirationByItem := [("A", 5)] }

/-- C3: for every key, if a value was stored at time T and GetPriceFor is
called at time T' with T' strictly before T + maxAge, the upstream service
is not invoked and the call returns exactly the stored value with a nil
error (and the cache is unchanged). -/
theorem C3_freshness (c : TransparentCache) (k : String) (p : Price)
    (T now : Time)
    (hp : c.prices.lookup k = some p)
    (ht : c.expirationByItem.lookup k = some T)
    (hfresh : now < T + c.maxAge) :
    GetPriceFor c now k =
      { price := p, err := none, serviceCalls := 0, cache := c } := by
  unfold GetPriceFor
  rw [hp, ht]
  simp only [Option.getD_some, gt_iff_lt, if_pos hfresh]

/-- C3 witness: a concrete fresh cache hit at time 50 for a value stored at
time 5 with maxAge 100. -/
theorem C3_freshness_witness :
    GetPriceFor cacheWithA 50 "A" =
      { price := 42, err := none, serviceCalls := 0, cache := cacheWithA } :=
  C3_freshness cacheWithA "A" 42 5 50 (by decide) (by decide) (by decide)

/-- C4: for every key whose entry is absent or stale (stored at T with
T + maxAge ≤ now), a call at time now invokes the upstream lookup exactly
once; on success its result is the returned value and that value together
with the fresh timestamp now is written back into both mappings. -/
theorem C4_expiry (c : TransparentCache) (k : String) (v : Price) (now : Time)
    (hmiss : c.prices.lookup k = none ∨
      ∃ T, c.expirationByItem.lookup k = some T ∧ T + c.maxAge ≤ now)
    (hsvc : c.actualPriceService k = .ok v) :
    GetPriceFor c now k =
      { price := v, err := none, serviceCalls := 1,
        cache :=
          { c with
            prices := mapStore c.prices k v
            expirationByItem := mapStore c.expirationByItem k now } } ∧
    (GetPriceFor c now k).cache.prices.lookup k = some v ∧
    (GetPriceFor c now k).cache.expirationByItem.lookup k = some now := by
  have hfetch : GetPriceFor c now k =
      { price := v, err := none, serviceCalls := 1,
        cache :=
          { c with
            prices := mapStore c.prices k v
            expirationByItem := mapStore c.expirationByItem k now } } := by
    rw [GetPriceFor_eq_fetch]
    · unfold fetchFromService
      rw [hsvc]
    · intro p hp
      rcases hmiss with hnone | ⟨T, ht, hle⟩
      · rw [hnone] at hp
        exact absurd hp (by simp)
      · rw [ht]
        simp only [Option.getD_some, gt_iff_lt, not_lt]
        exact hle
  refine ⟨hfetch, ?_, ?_⟩ <;>
    simp [hfetch, lookup_mapStore]

/-- C4 witness: a concrete stale entry (stored at 5, maxAge 100, called at
200) is refreshed from the service with the fresh timestamp 200. -/
theorem C4_expiry_witness :
    GetPriceFor cacheWithA 200 "A" =
      { price := 10, err := none, serviceCalls := 1,
        cache :=
          { cacheWithA with
            prices := mapStore cacheWithA.prices "A" 10
            expirationByItem := mapStore cacheWithA.expirationByItem "A" 200 } } ∧
    (GetPriceFor cacheWithA 200 "A").cache.prices.lookup "A" = some 10 ∧
    (GetPriceFor cacheWithA 200 "A").cache.expirationByItem.lookup "A" =
      some 200 :=
  C4_expiry cacheWithA "A" 10 200
    (Or.inr ⟨5, by decide, by decide⟩) (by simp [cacheWithA, svcA])

/-- C5: for every key whose entry is absent or stale, when the upstream
lookup fails the call returns price 0 and a non-nil error that names the
upstream lookup and carries the underlying cause, and the cache (both
mappings) is left unchanged. -/
theorem C5_upstream_failure (c : TransparentCache) (k : String) (e : String)
    (now : Time)
    (hmiss : c.prices.lookup k = none ∨
      ∃ T, c.expirationByItem.lookup k = some T ∧ T + c.maxAge ≤ now)
    (hsvc : c.actualPriceService k = .error e) :
    GetPriceFor c now k =
      { price := 0, err := some ("getting price from service : " ++ e),
        serviceCalls := 1, cache := c } := by
  rw [GetPriceFor_eq_fetch]
  · unfold fetchFromService
    rw [hsvc]
  · intro p hp
    rcases hmiss with hnone | ⟨T, ht, hle⟩
    · rw [hnone] at hp
      exact absurd hp (by simp)
    · rw [ht]
      simp only [Option.getD_some, gt_iff_lt, not_lt]
      exact hle

/-- C5 witness: the service fails for item B on an empty cache; the wrapped
error carries the cause and nothing is cached. -/
theorem C5_upstream_failure_witness :
    GetPriceFor (NewTransparentCache svcA 100) 0 "B" =
      { price := 0, err := some ("getting price from service : " ++ "boom"),
        serviceCalls := 1, cache := NewTransparentCache svcA 100 } :=
  C5_upstream_failure (NewTransparentCache svcA 100) "B" "boom" 0
    (Or.inl (by decide)) (by simp [NewTransparentCache, svcA])

/-- C6: the freshly constructed cache has both mappings empty (hence with
equal key sets), and every operation — a single GetPriceFor call as well as
the batch worker runs performed by GetPricesFor — preserves the invariant
that the price mapping and the timestamp mapping bind exactly the same
keys. -/
theorem C6_sameKeys_invariant (svc : PriceService) (a : Time)
    (c : TransparentCache) (now : Time) (k : String) (keys : List String)
    (h : sameKeys c) :
    sameKeys (NewTransparentCache svc a) ∧
    sameKeys (GetPriceFor c now k).cache ∧
    sameKeys (runWorkersSeq c now keys).2 := by
  refine ⟨?_, sameKeys_GetPriceFor c now k h, sameKeys_runWorkersSeq keys c now h⟩
  intro q
  simp [NewTransparentCache, List.lookup]

/-- C6 witness: the invariant holds for a concrete cache and is preserved by
a concrete call and a concrete batch. -/
theorem C6_sameKeys_invariant_witness :
    sameKeys (NewTransparentCache svcA 100) ∧
    sameKeys (GetPriceFor cacheWithA 200 "B").cache ∧
    sameKeys (runWorkersSeq cacheWithA 200 ["A", "B"]).2 :=
  C6_sameKeys_invariant svcA 100 cacheWithA 200 "B" ["A", "B"]
    (by
      intro q
      cases hq : q == "A" <;> simp [cacheWithA, List.lookup, hq])

/-- The observable outcome of one execution of GetPricesFor.  deadlock: the
coordinator blocks forever on a receive that can never be paired.  panicked:
some goroutine performs a send on a closed channel, which is a runtime
panic that crashes the process.  ok values err: the call returns (values,
err) to its caller. -/
inductive BatchOutcome where
  | deadlock : BatchOutcome
  | panicked : BatchOutcome
  | ok : List Price → Option String → BatchOutcome
deriving DecidableEq

/-- handleResults (cache.go lines 79-86): the collector goroutine receives
exactly one price per worker from the unbuffered input channel and appends
it, so the accumulated list holds the workers' prices in arrival order.
arrival lists the worker indices in the order the collector receives their
sends; it is a permutation of the worker indices chosen by the scheduler. -/
def handleResults (rs : List (Price × Option String)) (arrival : List Nat) :
    List Price :=
  arrival.map (fun i => (rs.getD i (0, none)).1)

/-- GetPricesFor (cache.go lines 57-76) for one execution, determined by two
scheduler choices beyond the worker schedule of runWorkersSeq: arrival, the
order in which the collector receives the worker price sends, and errIdx,
the worker whose error send is paired with the coordinator's single receive
on errOutput (line 71).  Each worker sends its price and then its error
(lines 91-92); the collector calls Done once per price received, so w.Wait()
returns only after all workers have delivered their prices, and any of them
can be the one whose error send is received on line 71.  With zero workers
nothing is ever sent on errOutput and the receive on line 71 blocks
forever: deadlock.  If the error the coordinator reads is non-nil it closes
errOutput (line 73) while every other worker still has a pending error
send; with at least two workers such a pending send hits the closed channel
and panics.  Otherwise the call returns the collected values and the one
error it read. -/
def GetPricesFor (c : TransparentCache) (now : Time) (itemCodes : List String)
    (arrival : List Nat) (errIdx : Nat) : BatchOutcome :=
  if (runWorkersSeq c now itemCodes).1.isEmpty then
    .deadlock
  else
    match ((runWorkersSeq c now itemCodes).1.getD errIdx (0, none)).2 with
    | none => .ok (handleResults (runWorkersSeq c now itemCodes).1 arrival) none
    | some e =>
        if 2 ≤ (runWorkersSeq c now itemCodes).1.length then .panicked
        else .ok (handleResults (runWorkersSeq c now itemCodes).1 arrival) (some e)

/-- Receives performed on errOutput by the coordinator: line 71 is the only
receive in the source, and it completes only when at least one worker
exists (with zero workers the coordinator blocks there forever). -/
def errorSendsConsumed (itemCodes : List String) : Nat :=
  if itemCodes.isEmpty then 0 else 1

/-- Error sends that are never consumed: each worker (cache.go line 92)
sends on errOutput exactly once, and only errorSendsConsumed of those sends
are ever received. -/
def errorSendsPending (itemCodes : List String) : Nat :=
  itemCodes.length - errorSendsConsumed itemCodes

-- Lemmas about the worker runs.

theorem runWorkersSeq_length (keys : List String) (c : TransparentCache)
    (now : Time) : (runWorkersSeq c now keys).1.length = keys.length := by
  induction keys generalizing c with
  | nil => rfl
  | cons k ks ih =>
      simp only [runWorkersSeq, List.length_cons]
      rw [ih]

theorem runWorkersSeq_err_none (keys : List String) (c : TransparentCache)
    (now : Time)
    (hok : ∀ k ∈ keys, ∃ v, c.actualPriceService k = Except.ok v) :
    ∀ r ∈ (runWorkersSeq c now keys).1, r.2 = none := by
  induction keys generalizing c with
  | nil =>
      intro r hr
      simp [runWorkersSeq] at hr
  | cons k ks ih =>
      intro r hr
      simp only [runWorkersSeq, List.mem_cons] at hr
      rcases hr with hr | hr
      · subst hr
        obtain ⟨v, hv⟩ := hok k (List.mem_cons_self k ks)
        exact GetPriceFor_err_of_service_ok c now k v hv
      · refine ih (GetPriceFor c now k).cache ?_ r hr
        intro k' hk'
        rw [GetPriceFor_service_unchanged]
        exact hok k' (List.mem_cons_of_mem k hk')

theorem runWorkersSeq_err_zero (keys : List String) (c : TransparentCache)
    (now : Time) :
    ∀ r ∈ (runWorkersSeq c now keys).1, r.2 ≠ none → r.1 = 0 := by
  induction keys generalizing c with
  | nil =>
      intro r hr
      simp [runWorkersSeq] at hr
  | cons k ks ih =>
      intro r hr
      simp only [runWorkersSeq, List.mem_cons] at hr
      rcases hr with hr | hr
      · subst hr
        exact GetPriceFor_price_zero_of_err c now k
      · exact ih (GetPriceFor c now k).cache r hr

theorem getD_mem_of_lt (rs : List α) (i : Nat) (d : α) (h : i < rs.length) :
    rs.getD i d ∈ rs := by
  induction rs generalizing i with
  | nil => simp at h
  | cons a t ih =>
      cases i with
      | zero => simp [List.getD]
      | succ n =>
          rw [List.getD_cons_succ]
          exact List.mem_cons_of_mem a (ih n (by simpa using h))

theorem map_getD_range (rs : List α) (d : α) :
    (List.range rs.length).map (fun i => rs.getD i d) = rs := by
  induction rs with
  | nil => simp
  | cons a t ih =>
      rw [List.length_cons, List.range_succ_eq_map, List.map_cons,
        List.map_map]
      simp only [Function.comp_def, List.getD_cons_zero, List.getD_cons_succ]
      rw [ih]

/-- C1: the code does not satisfy batch failure propagation.  With the
service failing for item B (worker 1's result carries a non-nil error), the
execution in which the coordinator's single receive on errOutput happens to
pair with worker 0's nil error returns the values with a nil error, so a
failing key does not surface as an overall error. -/
theorem C1_failure_not_propagated :
    ((runWorkersSeq (NewTransparentCache svcA 100) 0 ["A", "B"]).1.getD 1
        (0, none)).2 ≠ none ∧
    GetPricesFor (NewTransparentCache svcA 100) 0 ["A", "B"] [0, 1] 0 =
      .ok [10, 0] none := by
  decide

/-- C2: the code does not return on zero keys.  With no workers nothing is
ever sent on errOutput, so the coordinator blocks forever at the receive on
line 71: the call deadlocks instead of returning an empty result. -/
theorem C2_zero_keys_deadlock :
    GetPricesFor (NewTransparentCache svcA 100) 0 [] [] 0 = .deadlock := by
  decide

/-- C7: for every non-empty key set whose every lookup succeeds, every
execution of GetPricesFor returns the collected values with a nil error,
and the number of returned values equals the number of requested keys
(duplicates included). -/
theorem C7_batch_completeness (c : TransparentCache) (now : Time)
    (keys : List String) (arrival : List Nat) (errIdx : Nat)
    (hne : keys ≠ [])
    (hok : ∀ k ∈ keys, ∃ v, c.actualPriceService k = Except.ok v)
    (harr : arrival.Perm (List.range keys.length))
    (herr : errIdx < keys.length) :
    GetPricesFor c now keys arrival errIdx =
      .ok (handleResults (runWorkersSeq c now keys).1 arrival) none ∧
    (handleResults (runWorkersSeq c now keys).1 arrival).length =
      keys.length := by
  rcases hrs : (runWorkersSeq c now keys).1 with _ | ⟨r0, rtl⟩
  · exfalso
    apply hne
    have hlen := runWorkersSeq_length keys c now
    rw [hrs] at hlen
    exact List.length_eq_zero.mp hlen.symm
  · have hlen := runWorkersSeq_length keys c now
    rw [hrs] at hlen
    have herrnone : ((r0 :: rtl).getD errIdx (0, none)).2 = none := by
      apply runWorkersSeq_err_none keys c now hok
      rw [hrs]
      apply getD_mem_of_lt
      omega
    constructor
    · unfold GetPricesFor
      rw [hrs, herrnone]
      simp
    · unfold handleResults
      rw [List.length_map, harr.length_eq, List.length_range]

/-- C7 witness: two successful lookups of item A with arrival order [1, 0]
and the coordinator receiving worker 1's nil error. -/
theorem C7_batch_completeness_witness :
    GetPricesFor (NewTransparentCache svcA 100) 0 ["A", "A"] [1, 0] 1 =
      .ok (handleResults
        (runWorkersSeq (NewTransparentCache svcA 100) 0 ["A", "A"]).1 [1, 0])
        none ∧
    (handleResults
        (runWorkersSeq (NewTransparentCache svcA 100) 0 ["A", "A"]).1
        [1, 0]).length = (["A", "A"] : List String).length :=
  C7_batch_completeness (NewTransparentCache svcA 100) 0 ["A", "A"] [1, 0] 1
    (by decide)
    (by
      intro k hk
      simp only [List.mem_cons, List.not_mem_nil, or_false] at hk
      rcases hk with h | h <;> subst h <;> exact ⟨10, rfl⟩)
    (by decide) (by decide)

/-- C8: the coordinator performs exactly one receive on errOutput, so with
two workers one worker's error send is never consumed: the claim that every
lookup's error is consumed and no unconsumed error signal remains fails for
every batch of at least two keys. -/
theorem C8_error_send_leak :
    errorSendsConsumed ["A", "B"] = 1 ∧ errorSendsPending ["A", "B"] = 1 ∧
    (["A", "B"] : List String).length = 2 := by
  decide

/-- C9: the code can reach a send on a closed channel.  With two keys whose
workers both deliver their prices, if the error the coordinator reads first
is non-nil it closes errOutput while the other worker's error send is still
pending, and that send panics: here worker 1 (item B) fails, its error is
read first, and worker 0's pending send hits the closed channel. -/
theorem C9_send_on_closed_channel :
    GetPricesFor (NewTransparentCache svcA 100) 0 ["A", "B"] [0, 1] 1 =
      .panicked := by
  decide

/-- C10: every execution of GetPricesFor over at least one key that returns
normally returns exactly one value per requested key occurrence (a
permutation of the workers' prices, so duplicates included), and every
worker whose lookup failed contributed the value 0. -/
theorem C10_batch_values (c : TransparentCache) (now : Time)
    (keys : List String) (arrival : List Nat) (errIdx : Nat)
    (values : List Price) (err : Option String)
    (hne : keys ≠ [])
    (harr : arrival.Perm (List.range keys.length))
    (hret : GetPricesFor c now keys arrival errIdx = .ok values err) :
    values.length = keys.length ∧
    values.Perm ((runWorkersSeq c now keys).1.map Prod.fst) ∧
    (∀ r ∈ (runWorkersSeq c now keys).1, r.2 ≠ none → r.1 = 0) := by
  have hv : values =
      handleResults (runWorkersSeq c now keys).1 arrival := by
    unfold GetPricesFor at hret
    split at hret
    · exact absurd hret (by simp)
    · split at hret
      · cases hret
        rfl
      · split at hret
        · exact absurd hret (by simp)
        · cases hret
          rfl
  have hmap : (List.range keys.length).map
        (fun i => ((runWorkersSeq c now keys).1.getD i (0, none)).1) =
      (runWorkersSeq c now keys).1.map Prod.fst := by
    calc (List.range keys.length).map
          (fun i => ((runWorkersSeq c now keys).1.getD i (0, none)).1)
        = (List.range (runWorkersSeq c now keys).1.length).map
            (fun i => ((runWorkersSeq c now keys).1.getD i (0, none)).1) := by
          rw [runWorkersSeq_length]
      _ = ((List.range (runWorkersSeq c now keys).1.length).map
            (fun i => (runWorkersSeq c now keys).1.getD i (0, none))).map
            Prod.fst := by
          rw [List.map_map]
          simp only [Function.comp_def]
      _ = (runWorkersSeq c now keys).1.map Prod.fst := by
          rw [map_getD_range]
  subst hv
  refine ⟨?_, ?_, runWorkersSeq_err_zero keys c now⟩
  · unfold handleResults
    rw [List.length_map, harr.length_eq, List.length_range]
  · have hperm := harr.map
      (fun i => ((runWorkersSeq c now keys).1.getD i (0, none)).1)
    rw [hmap] at hperm
    exact hperm

/-- C10 witness: the batch over [A, B] with B failing, in the execution
that returns normally with a nil error: two values come back and the failed
worker contributed 0. -/
theorem C10_batch_values_witness :
    (handleResults
        (runWorkersSeq (NewTransparentCache svcA 100) 0 ["A", "B"]).1
        [0, 1]).length = (["A", "B"] : List String).length ∧
    (handleResults
        (runWorkersSeq (NewTransparentCache svcA 100) 0 ["A", "B"]).1
        [0, 1]).Perm
      ((runWorkersSeq (NewTransparentCache svcA 100) 0 ["A", "B"]).1.map
        Prod.fst) ∧
    (∀ r ∈ (runWorkersSeq (NewTransparentCache svcA 100) 0 ["A", "B"]).1,
      r.2 ≠ none → r.1 = 0) :=
  C10_batch_values (NewTransparentCache svcA 100) 0 ["A", "B"] [0, 1] 0
    (handleResults
      (runWorkersSeq (NewTransparentCache svcA 100) 0 ["A", "B"]).1 [0, 1])
    none (by decide) (by decide) (by decide)

end GolangChallenge
